import Mathlib

/-!
Shallow embedding of the merge engine, durable event buffer and batched
cloud-sync dispatcher of aw-watcher-web (src/storage.ts and
src/background/cloud-sync.ts).

Modelling conventions:
- JavaScript millisecond timestamps (`Date.getTime`) and millisecond
  durations are embedded as `Int`; the pulse window (seconds) is an `Int`.
- The platform pair `Date.prototype.toISOString` / `new Date(string)` is
  an external collaborator; it is abstracted as a pair of functions
  `enc : Int → String` and `dec : String → Int` passed to every operation
  that serializes or deserializes the buffer.  Real dates satisfy
  `dec (enc t) = t` at millisecond precision; theorems that need this take
  it as a hypothesis on the timestamps actually involved.
- The WHATWG `new URL(url)` parser is an external collaborator; it is
  abstracted as `urlParse : String → Option (String × String)` returning
  the protocol (with trailing colon, as the platform does) and hostname,
  or `none` when the constructor throws.
- `fetch` is an external collaborator; its per-call behaviour is
  abstracted as a `FetchResult` (success response, non-success response,
  or thrown exception) supplied per batch index.
- An optional JS string field (possibly `undefined`) is `Option String`;
  JS truthiness on such a field treats both `undefined` and the empty
  string as falsy, which the helper `jsOrString` reproduces.
-/

namespace AwWatcherWeb

/-- Heartbeat payload, the `IEvent data` object as built by
`src/background/heartbeat.ts`: `url` and `title` of the active tab plus
auxiliary fields.  `url` is `Option String` because the cloud-sync mapper
defensively handles a missing or non-string `url`. -/
structure HeartbeatData where
  url : Option String
  title : String
  audible : Bool
  incognito : Bool
  tabCount : Int
deriving DecidableEq

/-- Working (deserialized) form of a buffered heartbeat, `ASHeartbeat` in
src/storage.ts: millisecond timestamp, millisecond duration, payload and
optional email. -/
structure ASHeartbeat where
  timestamp : Int
  duration : Int
  data : HeartbeatData
  email : Option String
deriving DecidableEq

/-- Persisted form, `ASHeartbeatStorage` in src/storage.ts: the timestamp
is a string (the ISO form produced by the platform `Date`). -/
structure ASHeartbeatStorage where
  timestamp : String
  duration : Int
  data : HeartbeatData
  email : Option String
deriving DecidableEq

/-- `toStorageFormat` of src/storage.ts: spread the heartbeat and replace
the timestamp by its string serialization (`toISOString`, abstracted as
`enc`). -/
def toStorageFormat (enc : Int → String) (heartbeat : ASHeartbeat) : ASHeartbeatStorage :=
  { timestamp := enc heartbeat.timestamp
    duration := heartbeat.duration
    data := heartbeat.data
    email := heartbeat.email }

/-- `fromStorageFormat` of src/storage.ts: spread the stored record and
replace the timestamp string by the parsed date (`new Date`, abstracted
as `dec`). -/
def fromStorageFormat (dec : String → Int) (heartbeat : ASHeartbeatStorage) : ASHeartbeat :=
  { timestamp := dec heartbeat.timestamp
    duration := heartbeat.duration
    data := heartbeat.data
    email := heartbeat.email }

/-- JavaScript `a || b` on two optional strings: `undefined` and the empty
string are falsy, any other string wins. -/
def jsOrString : Option String → Option String → Option String
  | some s, b => if s = "" then b else some s
  | none, b => b

/-- `heartbeatMerge` of src/storage.ts.  Returns `none` when the urls
differ or the candidate falls outside the pulse window, otherwise the
last heartbeat with duration extended to
`max lastHeartbeat.duration (newHeartbeat.timestamp - lastHeartbeat.timestamp)`
and email `newHeartbeat.email || lastHeartbeat.email`. -/
def heartbeatMerge (lastHeartbeat newHeartbeat : ASHeartbeat) (pulsetime : Int) :
    Option ASHeartbeat :=
  if lastHeartbeat.data.url ≠ newHeartbeat.data.url then
    none
  else
    let lastEndTime := lastHeartbeat.timestamp + lastHeartbeat.duration + pulsetime * 1000
    if newHeartbeat.timestamp ≤ lastEndTime then
      let newDuration := newHeartbeat.timestamp - lastHeartbeat.timestamp
      let extendedDuration := max lastHeartbeat.duration newDuration
      some { lastHeartbeat with
              duration := extendedDuration
              email := jsOrString newHeartbeat.email lastHeartbeat.email }
    else
      none

/-- The `asHeartbeats` key of `browser.storage.local`: `none` when the key
is unset (or holds a non-array), otherwise the stored array. -/
abbrev HeartbeatStore := Option (List ASHeartbeatStorage)

/-- `getASHeartbeats` of src/storage.ts: read the stored array (empty when
absent) and deserialize each element. -/
def getASHeartbeats (dec : String → Int) (st : HeartbeatStore) : List ASHeartbeat :=
  match st with
  | none => []
  | some heartbeats => heartbeats.map (fromStorageFormat dec)

/-- `addASHeartbeat` of src/storage.ts: read all heartbeats; if none, store
the single new one; otherwise try to merge with the last element, and
store either all-but-last plus the merged heartbeat, or all plus the new
heartbeat, serializing every element.  Returns the array written back to
the `asHeartbeats` key. -/
def addASHeartbeat (enc : Int → String) (dec : String → Int) (st : HeartbeatStore)
    (heartbeat : ASHeartbeat) (pulsetime : Int) : List ASHeartbeatStorage :=
  let existingHeartbeats := getASHeartbeats dec st
  match existingHeartbeats.getLast? with
  | none => [toStorageFormat enc heartbeat]
  | some lastHeartbeat =>
    match heartbeatMerge lastHeartbeat heartbeat pulsetime with
    | some mergedHeartbeat =>
      (existingHeartbeats.dropLast ++ [mergedHeartbeat]).map (toStorageFormat enc)
    | none =>
      (existingHeartbeats ++ [heartbeat]).map (toStorageFormat enc)

/-- `clearASHeartbeats` of src/storage.ts: set the key to the empty array. -/
def clearASHeartbeats : HeartbeatStore := some []

/-- JavaScript `s.trim()`: strip leading and trailing whitespace.
Implemented structurally over the character list so that it is
kernel-computable. -/
def jsTrim (s : String) : String :=
  String.mk (((s.data.dropWhile Char.isWhitespace).reverse.dropWhile
    Char.isWhitespace).reverse)

/-- `SyncConfig` of src/background/cloud-sync.ts. -/
structure SyncConfig where
  tag : String
  subdomain : String
  url : String
deriving DecidableEq

/-- `validateSyncPrerequisites` of src/background/cloud-sync.ts: `none`
when the subdomain or tag is unset or blank, otherwise the config with
the lambda url (the url construction lives in a helper module and is
passed in opaquely). -/
def validateSyncPrerequisites (tag subdomain lambdaUrl : String) : Option SyncConfig :=
  if subdomain = "" || tag = "" || jsTrim subdomain = "" || jsTrim tag = "" then
    none
  else
    some { tag := tag, subdomain := subdomain, url := lambdaUrl }

/-- Outcome of one `fetch` call: a success response (`response.ok`), a
non-success response, or a thrown exception. -/
inductive FetchResult where
  | ok
  | notOk
  | thrown
deriving DecidableEq

/-- `ParsedUrl` of src/background/cloud-sync.ts. -/
structure ParsedUrl where
  scheme : String
  host : String
deriving DecidableEq

/-- JavaScript `s.replace(c, empty)` with a single-character pattern:
remove the first occurrence of the character. -/
def removeFirstChar (c : Char) : List Char → List Char
  | [] => []
  | x :: xs => if x = c then xs else x :: removeFirstChar c xs

/-- `parseUrl` of src/background/cloud-sync.ts: run the platform URL
parser (abstracted as `urlParse`, yielding protocol-with-colon and
hostname, or `none` when the constructor throws); on success the scheme
is the protocol with its first colon removed, on failure both fields stay
empty. -/
def parseUrl (urlParse : String → Option (String × String)) (url : String) : ParsedUrl :=
  match urlParse url with
  | some (protocol, hostname) =>
    { scheme := String.mk (removeFirstChar ':' protocol.data), host := hostname }
  | none => { scheme := "", host := "" }

/-- `MappedHeartbeat` of src/background/cloud-sync.ts: the wire record.
The duration is in seconds, an exact rational since the source divides
the millisecond duration by 1000. -/
structure MappedHeartbeat where
  timestamp : String
  duration : ℚ
  url : Option String
  title : String
  protocol : String
  domain : String
  email : Option String
deriving DecidableEq

/-- The per-element body of `mapHeartbeatData`: parse the url when it is
a truthy string (JS truthiness makes the empty string falsy), else leave
scheme and host empty; serialize the timestamp; convert the duration from
milliseconds to seconds. -/
def mapOneHeartbeat (enc : Int → String) (urlParse : String → Option (String × String))
    (heartbeat : ASHeartbeat) : MappedHeartbeat :=
  let parsed : ParsedUrl :=
    match heartbeat.data.url with
    | some u => if u = "" then { scheme := "", host := "" } else parseUrl urlParse u
    | none => { scheme := "", host := "" }
  { timestamp := enc heartbeat.timestamp
    duration := (heartbeat.duration : ℚ) / 1000
    url := heartbeat.data.url
    title := heartbeat.data.title
    protocol := parsed.scheme
    domain := parsed.host
    email := heartbeat.email }

/-- `mapHeartbeatData` of src/background/cloud-sync.ts. -/
def mapHeartbeatData (enc : Int → String) (urlParse : String → Option (String × String))
    (asHeartbeats : List ASHeartbeat) : List MappedHeartbeat :=
  asHeartbeats.map (mapOneHeartbeat enc urlParse)

/-- `isValidHeartbeat` of src/background/cloud-sync.ts: the scheme must be
http or https and the domain non-empty. -/
def isValidHeartbeat (heartbeat : MappedHeartbeat) : Bool :=
  (heartbeat.protocol == "http" || heartbeat.protocol == "https") &&
    !(heartbeat.domain == "")

/-- `filterValidHeartbeats` of src/background/cloud-sync.ts. -/
def filterValidHeartbeats (mappedHeartbeats : List MappedHeartbeat) : List MappedHeartbeat :=
  mappedHeartbeats.filter isValidHeartbeat

/-- `syncBatch` of src/background/cloud-sync.ts: returns false without
calling the transport when the subdomain or tag is blank; otherwise true
exactly on a success response, false on a non-success response or a
thrown exception (the catch block). -/
def syncBatch (batch : List MappedHeartbeat) (config : SyncConfig) (res : FetchResult) : Bool :=
  if config.subdomain = "" || config.tag = "" ||
      jsTrim config.subdomain = "" || jsTrim config.tag = "" then
    false
  else
    match res with
    | .ok => true
    | .notOk => false
    | .thrown => false

/-- Modelled from the spec: `processInBatches` is imported from
src/background/helpers.ts, which is not among the sources; the spec says
the filtered sequence is partitioned into fixed-size batches of 100,
preserving order, the last batch possibly short, each batch handed to the
callback sequentially.  This function returns that partition. -/
def processInBatches (l : List MappedHeartbeat) : List (List MappedHeartbeat) :=
  if h : l = [] then
    []
  else
    l.take 100 :: processInBatches (l.drop 100)
termination_by l.length
decreasing_by
  simp only [List.length_drop]
  have : 0 < l.length := List.length_pos.mpr h
  omega

/-- The batch loop body of `cloudSyncAlarmListener`: run `syncBatch` on
each batch in order, feeding each batch its transport outcome by index. -/
def runBatches (config : SyncConfig) (fetchRes : Nat → FetchResult) :
    Nat → List (List MappedHeartbeat) → List Bool
  | _, [] => []
  | i, b :: bs => syncBatch b config (fetchRes i) :: runBatches config fetchRes (i + 1) bs

/-- The outcome classification the spec names `SyncOutcome`: `Cleared`
labels the code path that clears the buffer, `PartialFailure` the path
that keeps it after a failed batch, `Skipped` every early return and the
no-batch-attempted path. -/
inductive SyncOutcome where
  | Skipped
  | Cleared
  | PartialFailure
deriving DecidableEq

/-- Result of one sync cycle: the outcome label and the state of the
`asHeartbeats` key afterwards. -/
structure CycleResult where
  outcome : SyncOutcome
  store : HeartbeatStore
deriving DecidableEq

/-- The body of `cloudSyncAlarmListener` of src/background/cloud-sync.ts
after the alarm-name dispatch: check the cloud-sync policy, validate the
prerequisites, read the buffer, map and filter it, send it in batches of
100 tracking `anyBatchAttempted` and `allBatchesSuccessful`, and clear
the buffer only when at least one batch was attempted and all succeeded
(`clearHeartbeats`). -/
def cloudSyncCycle (cloudSyncEnabled : Bool) (tag subdomain lambdaUrl : String)
    (enc : Int → String) (dec : String → Int)
    (urlParse : String → Option (String × String))
    (st : HeartbeatStore) (fetchRes : Nat → FetchResult) : CycleResult :=
  if !cloudSyncEnabled then
    { outcome := .Skipped, store := st }
  else
    match validateSyncPrerequisites tag subdomain lambdaUrl with
    | none => { outcome := .Skipped, store := st }
    | some syncConfig =>
      let asHeartbeats := getASHeartbeats dec st
      if asHeartbeats.isEmpty then
        { outcome := .Skipped, store := st }
      else
        let data := filterValidHeartbeats (mapHeartbeatData enc urlParse asHeartbeats)
        if data.isEmpty then
          { outcome := .Skipped, store := st }
        else
          let batches := processInBatches data
          let results := runBatches syncConfig fetchRes 0 batches
          let anyBatchAttempted := !batches.isEmpty
          let allBatchesSuccessful := results.all (fun b => b)
          if anyBatchAttempted then
            if allBatchesSuccessful then
              { outcome := .Cleared, store := clearASHeartbeats }
            else
              { outcome := .PartialFailure, store := st }
          else
            { outcome := .Skipped, store := st }

/-- Iterated merging into a single tail: fold `heartbeatMerge` over a
list of (candidate, pulsetime) pairs, failing when any step refuses to
merge.  This is the "sequence of merges into one tail" of the spec. -/
def mergeChain : ASHeartbeat → List (ASHeartbeat × Int) → Option ASHeartbeat
  | t, [] => some t
  | t, (c, p) :: rest =>
    match heartbeatMerge t c p with
    | some m => mergeChain m rest
    | none => none

/-- Sample payload for concrete instances. -/
def sampleData (u t : String) : HeartbeatData :=
  { url := some u, title := t, audible := false, incognito := false, tabCount := 1 }

/-- Trivial timestamp serializer for concrete instances (all sample
timestamps are zero, so it round-trips). -/
def encE : Int → String := fun _ => "e"

/-- Trivial timestamp deserializer for concrete instances. -/
def decZ : String → Int := fun _ => 0

/-- Sample two-element persisted buffer. -/
def sampleStore2 : HeartbeatStore :=
  some [ASHeartbeatStorage.mk "e" 5 (sampleData "https://a.com" "A") none,
        ASHeartbeatStorage.mk "e" 7 (sampleData "https://b.com" "B") none]

/-- Sample candidate heartbeat with a third locator. -/
def candC : ASHeartbeat := ASHeartbeat.mk 0 0 (sampleData "https://c.com" "C") none

section Lemmas

theorem fromStorage_toStorage (enc : Int → String) (dec : String → Int) (x : ASHeartbeat)
    (h : dec (enc x.timestamp) = x.timestamp) :
    fromStorageFormat dec (toStorageFormat enc x) = x := by
  cases x
  simp_all [fromStorageFormat, toStorageFormat]

theorem map_storage_roundtrip (enc : Int → String) (dec : String → Int)
    (l : List ASHeartbeat) (h : ∀ x ∈ l, dec (enc x.timestamp) = x.timestamp) :
    (l.map (toStorageFormat enc)).map (fromStorageFormat dec) = l := by
  induction l with
  | nil => rfl
  | cons a t ih =>
    simp only [List.map_cons, List.cons.injEq]
    refine ⟨fromStorage_toStorage enc dec a (h a (by simp)), ih ?_⟩
    intro x hx
    exact h x (by simp [hx])

theorem heartbeatMerge_extend (lastE cand : ASHeartbeat) (p : Int)
    (hurl : lastE.data.url = cand.data.url)
    (hwin : cand.timestamp ≤ lastE.timestamp + lastE.duration + p * 1000) :
    heartbeatMerge lastE cand p =
      some { lastE with
              duration := max lastE.duration (cand.timestamp - lastE.timestamp)
              email := jsOrString cand.email lastE.email } := by
  simp [heartbeatMerge, hurl, hwin]

theorem heartbeatMerge_none_of_url (lastE cand : ASHeartbeat) (p : Int)
    (hne : lastE.data.url ≠ cand.data.url) :
    heartbeatMerge lastE cand p = none := by
  simp [heartbeatMerge, hne]

theorem heartbeatMerge_inv (lastE cand m : ASHeartbeat) (p : Int)
    (h : heartbeatMerge lastE cand p = some m) :
    lastE.data.url = cand.data.url ∧
    cand.timestamp ≤ lastE.timestamp + lastE.duration + p * 1000 ∧
    m = { lastE with
            duration := max lastE.duration (cand.timestamp - lastE.timestamp)
            email := jsOrString cand.email lastE.email } := by
  by_cases hu : lastE.data.url = cand.data.url
  · by_cases hwin : cand.timestamp ≤ lastE.timestamp + lastE.duration + p * 1000
    · refine ⟨hu, hwin, ?_⟩
      rw [heartbeatMerge_extend lastE cand p hu hwin] at h
      simp only [Option.some.injEq] at h
      exact h.symm
    · exfalso
      simp [heartbeatMerge, hu, hwin] at h
  · exfalso
    simp [heartbeatMerge, hu] at h

theorem merge_step_duration_mono (lastE cand m : ASHeartbeat) (p : Int)
    (h : heartbeatMerge lastE cand p = some m) :
    lastE.duration ≤ m.duration := by
  obtain ⟨-, -, hm⟩ := heartbeatMerge_inv lastE cand m p h
  subst hm
  exact le_max_left _ _

theorem addASHeartbeat_of_empty (enc : Int → String) (dec : String → Int)
    (st : HeartbeatStore) (cand : ASHeartbeat) (p : Int)
    (h : getASHeartbeats dec st = []) :
    addASHeartbeat enc dec st cand p = [toStorageFormat enc cand] := by
  simp [addASHeartbeat, h]

theorem addASHeartbeat_of_append (enc : Int → String) (dec : String → Int)
    (st : HeartbeatStore) (lastE cand : ASHeartbeat) (p : Int)
    (hlast : (getASHeartbeats dec st).getLast? = some lastE)
    (hm : heartbeatMerge lastE cand p = none) :
    addASHeartbeat enc dec st cand p =
      (getASHeartbeats dec st ++ [cand]).map (toStorageFormat enc) := by
  simp [addASHeartbeat, hlast, hm]

theorem addASHeartbeat_of_merge (enc : Int → String) (dec : String → Int)
    (st : HeartbeatStore) (lastE cand m : ASHeartbeat) (p : Int)
    (hlast : (getASHeartbeats dec st).getLast? = some lastE)
    (hm : heartbeatMerge lastE cand p = some m) :
    addASHeartbeat enc dec st cand p =
      ((getASHeartbeats dec st).dropLast ++ [m]).map (toStorageFormat enc) := by
  simp [addASHeartbeat, hlast, hm]

end Lemmas

/-- C2: for equal origin locators, a candidate whose timestamp is at or
before the pulse-window end (boundary included) yields an extension: the
timestamp is kept, the duration becomes the maximum of the old duration
and the candidate-implied duration, and the actor (email) is the
candidate's when truthy, else the last event's. -/
theorem merge_within_window_extends (lastE cand : ASHeartbeat) (p : Int)
    (hurl : lastE.data.url = cand.data.url)
    (hwin : cand.timestamp ≤ lastE.timestamp + lastE.duration + p * 1000) :
    heartbeatMerge lastE cand p =
      some { lastE with
              duration := max lastE.duration (cand.timestamp - lastE.timestamp)
              email := jsOrString cand.email lastE.email } :=
  heartbeatMerge_extend lastE cand p hurl hwin

theorem merge_within_window_extends_witness :
    heartbeatMerge
      { timestamp := 0, duration := 0
        data := { url := some "https://a.com", title := "A", audible := false,
                  incognito := false, tabCount := 1 }
        email := none }
      { timestamp := 30000, duration := 0
        data := { url := some "https://a.com", title := "B", audible := true,
                  incognito := false, tabCount := 2 }
        email := some "user" }
      30 =
      some { timestamp := 0, duration := 30000
             data := { url := some "https://a.com", title := "A", audible := false,
                       incognito := false, tabCount := 1 }
             email := some "user" } := by
  have h := merge_within_window_extends
    { timestamp := 0, duration := 0
      data := { url := some "https://a.com", title := "A", audible := false,
                incognito := false, tabCount := 1 }
      email := none }
    { timestamp := 30000, duration := 0
      data := { url := some "https://a.com", title := "B", audible := true,
                incognito := false, tabCount := 2 }
      email := some "user" }
    30 rfl (by decide)
  simpa [jsOrString] using h

/-- C10: whenever the merge extends the tail, the result is the previous
tail with only duration and email possibly changed; the candidate's
payload and timestamp are discarded entirely. -/
theorem merge_extend_frame (lastE cand m : ASHeartbeat) (p : Int)
    (h : heartbeatMerge lastE cand p = some m) :
    m.timestamp = lastE.timestamp ∧ m.data = lastE.data ∧
      m = { lastE with duration := m.duration, email := m.email } := by
  obtain ⟨-, -, hm⟩ := heartbeatMerge_inv lastE cand m p h
  subst hm
  exact ⟨rfl, rfl, rfl⟩

theorem merge_extend_frame_witness :
    (ASHeartbeat.mk 100 600
        { url := some "https://x.io", title := "old title", audible := false,
          incognito := false, tabCount := 3 }
        (some "b")).timestamp =
      (ASHeartbeat.mk 100 500
        { url := some "https://x.io", title := "old title", audible := false,
          incognito := false, tabCount := 3 }
        (some "a")).timestamp ∧
    (ASHeartbeat.mk 100 600
        { url := some "https://x.io", title := "old title", audible := false,
          incognito := false, tabCount := 3 }
        (some "b")).data =
      (ASHeartbeat.mk 100 500
        { url := some "https://x.io", title := "old title", audible := false,
          incognito := false, tabCount := 3 }
        (some "a")).data ∧
    ASHeartbeat.mk 100 600
        { url := some "https://x.io", title := "old title", audible := false,
          incognito := false, tabCount := 3 }
        (some "b") =
      { ASHeartbeat.mk 100 500
          { url := some "https://x.io", title := "old title", audible := false,
            incognito := false, tabCount := 3 }
          (some "a") with
        duration := (ASHeartbeat.mk 100 600
          { url := some "https://x.io", title := "old title", audible := false,
            incognito := false, tabCount := 3 }
          (some "b")).duration
        email := (ASHeartbeat.mk 100 600
          { url := some "https://x.io", title := "old title", audible := false,
            incognito := false, tabCount := 3 }
          (some "b")).email } :=
  merge_extend_frame
    (ASHeartbeat.mk 100 500
      { url := some "https://x.io", title := "old title", audible := false,
        incognito := false, tabCount := 3 }
      (some "a"))
    (ASHeartbeat.mk 700 0
      { url := some "https://x.io", title := "new title", audible := true,
        incognito := true, tabCount := 9 }
      (some "b"))
    (ASHeartbeat.mk 100 600
      { url := some "https://x.io", title := "old title", audible := false,
        incognito := false, tabCount := 3 }
      (some "b"))
    30 (by decide)

/-- C7: over any chain of successful merges into one tail, the duration
never decreases, even when a candidate's implied duration is smaller than
the current value. -/
theorem merge_chain_duration_monotone (t : ASHeartbeat)
    (cs : List (ASHeartbeat × Int)) (t' : ASHeartbeat)
    (h : mergeChain t cs = some t') :
    t.duration ≤ t'.duration := by
  induction cs generalizing t with
  | nil =>
    simp only [mergeChain, Option.some.injEq] at h
    subst h
    exact le_refl _
  | cons cp rest ih =>
    obtain ⟨c, p⟩ := cp
    unfold mergeChain at h
    cases hm : heartbeatMerge t c p with
    | none => rw [hm] at h; simp at h
    | some m =>
      rw [hm] at h
      exact le_trans (merge_step_duration_mono t c m p hm) (ih m h)

theorem merge_chain_duration_monotone_witness :
    mergeChain
      { timestamp := 0, duration := 0
        data := { url := some "https://a.com", title := "A", audible := false,
                  incognito := false, tabCount := 1 }
        email := none }
      [({ timestamp := 20000, duration := 0
          data := { url := some "https://a.com", title := "A", audible := false,
                    incognito := false, tabCount := 1 }
          email := none }, 30),
       ({ timestamp := 5000, duration := 0
          data := { url := some "https://a.com", title := "A", audible := false,
                    incognito := false, tabCount := 1 }
          email := none }, 30)] =
      some { timestamp := 0, duration := 20000
             data := { url := some "https://a.com", title := "A", audible := false,
                       incognito := false, tabCount := 1 }
             email := none } ∧
    (0 : Int) ≤ 20000 := by
  constructor
  · decide
  · exact merge_chain_duration_monotone
      { timestamp := 0, duration := 0
        data := { url := some "https://a.com", title := "A", audible := false,
                  incognito := false, tabCount := 1 }
        email := none }
      [({ timestamp := 20000, duration := 0
          data := { url := some "https://a.com", title := "A", audible := false,
                    incognito := false, tabCount := 1 }
          email := none }, 30),
       ({ timestamp := 5000, duration := 0
          data := { url := some "https://a.com", title := "A", audible := false,
                    incognito := false, tabCount := 1 }
          email := none }, 30)]
      { timestamp := 0, duration := 20000
        data := { url := some "https://a.com", title := "A", audible := false,
                  incognito := false, tabCount := 1 }
        email := none }
      (by decide)

/-- C5: with differing origin locators the merge never returns an
extension, whatever the timestamps and pulse window; `addASHeartbeat`
then appends the candidate as the new tail, leaving the previous tail and
all earlier elements unchanged; and a mismatch in any field other than
the locator never blocks merging (equal locators within the window always
extend). -/
theorem merge_locator_mismatch_appends (enc : Int → String) (dec : String → Int)
    (st : HeartbeatStore) (lastE cand : ASHeartbeat) (p : Int)
    (hlast : (getASHeartbeats dec st).getLast? = some lastE)
    (hne : lastE.data.url ≠ cand.data.url)
    (hr : ∀ x ∈ getASHeartbeats dec st, dec (enc x.timestamp) = x.timestamp)
    (hrc : dec (enc cand.timestamp) = cand.timestamp) :
    heartbeatMerge lastE cand p = none ∧
    getASHeartbeats dec (some (addASHeartbeat enc dec st cand p)) =
      getASHeartbeats dec st ++ [cand] ∧
    ∀ l2 c2 : ASHeartbeat, ∀ p2 : Int, l2.data.url = c2.data.url →
      c2.timestamp ≤ l2.timestamp + l2.duration + p2 * 1000 →
      (heartbeatMerge l2 c2 p2).isSome = true := by
  have hm := heartbeatMerge_none_of_url lastE cand p hne
  refine ⟨hm, ?_, ?_⟩
  · rw [addASHeartbeat_of_append enc dec st lastE cand p hlast hm]
    show ((getASHeartbeats dec st ++ [cand]).map (toStorageFormat enc)).map
      (fromStorageFormat dec) = _
    apply map_storage_roundtrip
    intro x hx
    rcases List.mem_append.mp hx with h1 | h1
    · exact hr x h1
    · rw [List.mem_singleton.mp h1]
      exact hrc
  · intro l2 c2 p2 h1 h2
    rw [heartbeatMerge_extend l2 c2 p2 h1 h2]
    rfl

theorem merge_locator_mismatch_appends_witness :
    heartbeatMerge
      (ASHeartbeat.mk 0 5
        { url := some "https://a.com", title := "A", audible := false,
          incognito := false, tabCount := 1 } none)
      (ASHeartbeat.mk 0 0
        { url := some "https://b.com", title := "B", audible := false,
          incognito := false, tabCount := 1 } none)
      30 = none ∧
    getASHeartbeats (fun _ => (0 : Int))
        (some (addASHeartbeat (fun _ => "e") (fun _ => (0 : Int))
          (some [ASHeartbeatStorage.mk "e" 5
            { url := some "https://a.com", title := "A", audible := false,
              incognito := false, tabCount := 1 } none])
          (ASHeartbeat.mk 0 0
            { url := some "https://b.com", title := "B", audible := false,
              incognito := false, tabCount := 1 } none)
          30)) =
      getASHeartbeats (fun _ => (0 : Int))
          (some [ASHeartbeatStorage.mk "e" 5
            { url := some "https://a.com", title := "A", audible := false,
              incognito := false, tabCount := 1 } none]) ++
        [ASHeartbeat.mk 0 0
          { url := some "https://b.com", title := "B", audible := false,
            incognito := false, tabCount := 1 } none] := by
  have h := merge_locator_mismatch_appends (fun _ => "e") (fun _ => (0 : Int))
    (some [ASHeartbeatStorage.mk "e" 5
      { url := some "https://a.com", title := "A", audible := false,
        incognito := false, tabCount := 1 } none])
    (ASHeartbeat.mk 0 5
      { url := some "https://a.com", title := "A", audible := false,
        incognito := false, tabCount := 1 } none)
    (ASHeartbeat.mk 0 0
      { url := some "https://b.com", title := "B", audible := false,
        incognito := false, tabCount := 1 } none)
    30 (by decide) (by decide) (by decide) (by decide)
  exact ⟨h.1, h.2.1⟩

/-- C4: one `addASHeartbeat` call leaves every element of the prior
buffer except the last unchanged at the same position, and the resulting
length is the prior length (tail extended) or the prior length plus one
(candidate appended). -/
theorem addASHeartbeat_keeps_earlier_elements (enc : Int → String) (dec : String → Int)
    (st : HeartbeatStore) (cand : ASHeartbeat) (p : Int)
    (hr : ∀ x ∈ getASHeartbeats dec st, dec (enc x.timestamp) = x.timestamp) :
    (∀ i : Nat, i + 1 < (getASHeartbeats dec st).length →
      (getASHeartbeats dec (some (addASHeartbeat enc dec st cand p)))[i]? =
        (getASHeartbeats dec st)[i]?) ∧
    ((getASHeartbeats dec (some (addASHeartbeat enc dec st cand p))).length =
        (getASHeartbeats dec st).length ∨
      (getASHeartbeats dec (some (addASHeartbeat enc dec st cand p))).length =
        (getASHeartbeats dec st).length + 1) := by
  cases hlast : (getASHeartbeats dec st).getLast? with
  | none =>
    have hnil : getASHeartbeats dec st = [] := List.getLast?_eq_none_iff.mp hlast
    rw [addASHeartbeat_of_empty enc dec st cand p hnil, hnil]
    constructor
    · intro i hi
      exact absurd hi (by simp)
    · right
      rfl
  | some lastE =>
    have hlen : 0 < (getASHeartbeats dec st).length := by
      cases hempty : getASHeartbeats dec st with
      | nil => rw [hempty] at hlast; simp at hlast
      | cons a t => simp
    cases hm : heartbeatMerge lastE cand p with
    | none =>
      rw [addASHeartbeat_of_append enc dec st lastE cand p hlast hm]
      constructor
      · intro i hi
        show (((getASHeartbeats dec st ++ [cand]).map (toStorageFormat enc)).map
          (fromStorageFormat dec))[i]? = _
        rw [List.getElem?_map, List.getElem?_map, List.getElem?_append,
          if_pos (by omega : i < (getASHeartbeats dec st).length)]
        cases hg : (getASHeartbeats dec st)[i]? with
        | none => rfl
        | some x =>
          have hxmem : x ∈ getASHeartbeats dec st := List.getElem?_mem hg
          simp only [Option.map]
          rw [fromStorage_toStorage enc dec x (hr x hxmem)]
      · right
        show (((getASHeartbeats dec st ++ [cand]).map (toStorageFormat enc)).map
          (fromStorageFormat dec)).length = _
        simp
    | some m =>
      rw [addASHeartbeat_of_merge enc dec st lastE cand m p hlast hm]
      constructor
      · intro i hi
        show ((((getASHeartbeats dec st).dropLast ++ [m]).map (toStorageFormat enc)).map
          (fromStorageFormat dec))[i]? = _
        rw [List.getElem?_map, List.getElem?_map, List.getElem?_append,
          if_pos (by rw [List.length_dropLast]; omega :
            i < (getASHeartbeats dec st).dropLast.length)]
        rw [List.dropLast_eq_take, List.getElem?_take,
          if_pos (by omega : i < (getASHeartbeats dec st).length - 1)]
        cases hg : (getASHeartbeats dec st)[i]? with
        | none => rfl
        | some x =>
          have hxmem : x ∈ getASHeartbeats dec st := List.getElem?_mem hg
          simp only [Option.map]
          rw [fromStorage_toStorage enc dec x (hr x hxmem)]
      · left
        show ((((getASHeartbeats dec st).dropLast ++ [m]).map (toStorageFormat enc)).map
          (fromStorageFormat dec)).length = _
        simp only [List.length_map, List.length_append, List.length_dropLast,
          List.length_singleton]
        omega

theorem addASHeartbeat_keeps_earlier_elements_witness :
    (getASHeartbeats decZ (some (addASHeartbeat encE decZ sampleStore2 candC 30)))[0]? =
      (getASHeartbeats decZ sampleStore2)[0]? ∧
    ((getASHeartbeats decZ (some (addASHeartbeat encE decZ sampleStore2 candC 30))).length =
        (getASHeartbeats decZ sampleStore2).length ∨
      (getASHeartbeats decZ (some (addASHeartbeat encE decZ sampleStore2 candC 30))).length =
        (getASHeartbeats decZ sampleStore2).length + 1) :=
  ⟨(addASHeartbeat_keeps_earlier_elements encE decZ sampleStore2 candC 30 (by decide)).1
      0 (by decide),
    (addASHeartbeat_keeps_earlier_elements encE decZ sampleStore2 candC 30 (by decide)).2⟩

/-- C8: deserializing the serialized persistence form returns the event
field-for-field whenever the platform date round-trips its timestamp, and
appending (the non-merging path of `addASHeartbeat`) followed by reading
all heartbeats yields a sequence whose last element equals the appended
event. -/
theorem storage_roundtrip_append_readAll (enc : Int → String) (dec : String → Int)
    (st : HeartbeatStore) (e : ASHeartbeat) (p : Int)
    (hre : dec (enc e.timestamp) = e.timestamp)
    (happ : ∀ tail, (getASHeartbeats dec st).getLast? = some tail →
      heartbeatMerge tail e p = none) :
    fromStorageFormat dec (toStorageFormat enc e) = e ∧
    (getASHeartbeats dec (some (addASHeartbeat enc dec st e p))).getLast? = some e := by
  refine ⟨fromStorage_toStorage enc dec e hre, ?_⟩
  cases hlast : (getASHeartbeats dec st).getLast? with
  | none =>
    rw [addASHeartbeat_of_empty enc dec st e p (List.getLast?_eq_none_iff.mp hlast)]
    show ([toStorageFormat enc e].map (fromStorageFormat dec)).getLast? = some e
    simp [fromStorage_toStorage enc dec e hre]
  | some tail =>
    rw [addASHeartbeat_of_append enc dec st tail e p hlast (happ tail hlast)]
    show (((getASHeartbeats dec st ++ [e]).map (toStorageFormat enc)).map
      (fromStorageFormat dec)).getLast? = some e
    rw [List.map_append, List.map_append, List.map_singleton, List.map_singleton,
      List.getLast?_concat]
    rw [fromStorage_toStorage enc dec e hre]

theorem storage_roundtrip_append_readAll_witness :
    fromStorageFormat (fun _ => (0 : Int))
        (toStorageFormat (fun _ => "e")
          (ASHeartbeat.mk 0 0
            { url := some "https://c.com", title := "C", audible := false,
              incognito := false, tabCount := 1 } none)) =
      ASHeartbeat.mk 0 0
        { url := some "https://c.com", title := "C", audible := false,
          incognito := false, tabCount := 1 } none ∧
    (getASHeartbeats (fun _ => (0 : Int))
        (some (addASHeartbeat (fun _ => "e") (fun _ => (0 : Int))
          (some [ASHeartbeatStorage.mk "e" 5
            { url := some "https://a.com", title := "A", audible := false,
              incognito := false, tabCount := 1 } none])
          (ASHeartbeat.mk 0 0
            { url := some "https://c.com", title := "C", audible := false,
              incognito := false, tabCount := 1 } none)
          30))).getLast? =
      some (ASHeartbeat.mk 0 0
        { url := some "https://c.com", title := "C", audible := false,
          incognito := false, tabCount := 1 } none) :=
  storage_roundtrip_append_readAll (fun _ => "e") (fun _ => (0 : Int))
    (some [ASHeartbeatStorage.mk "e" 5
      { url := some "https://a.com", title := "A", audible := false,
        incognito := false, tabCount := 1 } none])
    (ASHeartbeat.mk 0 0
      { url := some "https://c.com", title := "C", audible := false,
        incognito := false, tabCount := 1 } none)
    30 (by decide) (by decide)

/-- C6: the Validity Filter is a pure, order-preserving map-then-filter:
the pipeline equals mapping each event and then filtering; the output is
a sublist of the mapped sequence (order preserved); a missing, empty or
unparseable locator yields empty scheme and host instead of failing; a
record passes the filter exactly when its scheme is http or https and its
host is non-empty; the wire duration is the buffered millisecond duration
divided by 1000; and empty input gives empty output. -/
theorem validity_filter_map_then_filter (enc : Int → String)
    (urlParse : String → Option (String × String)) :
    (∀ l : List ASHeartbeat,
      filterValidHeartbeats (mapHeartbeatData enc urlParse l) =
        (l.map (mapOneHeartbeat enc urlParse)).filter isValidHeartbeat) ∧
    (∀ l : List ASHeartbeat,
      (filterValidHeartbeats (mapHeartbeatData enc urlParse l)).Sublist
        (mapHeartbeatData enc urlParse l)) ∧
    (∀ hb : ASHeartbeat,
      (hb.data.url = none ∨ hb.data.url = some "" ∨
        (∃ u, hb.data.url = some u ∧ urlParse u = none)) →
      (mapOneHeartbeat enc urlParse hb).protocol = "" ∧
        (mapOneHeartbeat enc urlParse hb).domain = "") ∧
    (∀ r : MappedHeartbeat, isValidHeartbeat r = true ↔
      ((r.protocol = "http" ∨ r.protocol = "https") ∧ r.domain ≠ "")) ∧
    (∀ hb : ASHeartbeat, (mapOneHeartbeat enc urlParse hb).duration =
      (hb.duration : ℚ) / 1000) ∧
    mapHeartbeatData enc urlParse ([] : List ASHeartbeat) = [] ∧
    filterValidHeartbeats ([] : List MappedHeartbeat) = [] := by
  refine ⟨fun l => rfl, fun l => List.filter_sublist _, ?_, ?_, fun hb => rfl, rfl, rfl⟩
  · intro hb hu
    rcases hu with hu | hu | ⟨u, hu, hpu⟩
    · simp [mapOneHeartbeat, hu]
    · simp [mapOneHeartbeat, hu]
    · by_cases he : u = ""
      · subst he
        simp [mapOneHeartbeat, hu]
      · simp [mapOneHeartbeat, hu, he, parseUrl, hpu]
  · intro r
    simp [isValidHeartbeat, and_comm]

theorem validity_filter_map_then_filter_witness :
    ((mapOneHeartbeat encE (fun _ => none)
        (ASHeartbeat.mk 0 5
          { url := none, title := "T", audible := false,
            incognito := false, tabCount := 1 }
          none)).protocol = "" ∧
      (mapOneHeartbeat encE (fun _ => none)
        (ASHeartbeat.mk 0 5
          { url := none, title := "T", audible := false,
            incognito := false, tabCount := 1 }
          none)).domain = "") ∧
    (isValidHeartbeat (MappedHeartbeat.mk "e" 1 (some "https://a.com") "A"
        "https" "a.com" none) = true ↔
      ((("https" : String) = "http" ∨ ("https" : String) = "https") ∧
        ("a.com" : String) ≠ "")) :=
  ⟨(validity_filter_map_then_filter encE (fun _ => none)).2.2.1
      (ASHeartbeat.mk 0 5
        { url := none, title := "T", audible := false,
          incognito := false, tabCount := 1 }
        none)
      (Or.inl rfl),
    (validity_filter_map_then_filter encE (fun _ => none)).2.2.2.1
      (MappedHeartbeat.mk "e" 1 (some "https://a.com") "A" "https" "a.com" none)⟩

/-- C3: when sync is policy-disabled, or the tag or routing subdomain is
blank (absence arrives as the empty string), or the buffer is empty, or
the validity filter removes every buffered event, the cycle ends Skipped
and the stored buffer is exactly unchanged. -/
theorem syncCycle_skip_retains_buffer (enabled : Bool)
    (tag subdomain lambdaUrl : String)
    (enc : Int → String) (dec : String → Int)
    (urlParse : String → Option (String × String))
    (st : HeartbeatStore) (fetchRes : Nat → FetchResult)
    (h : enabled = false ∨ jsTrim tag = "" ∨ jsTrim subdomain = "" ∨
      getASHeartbeats dec st = [] ∨
      filterValidHeartbeats (mapHeartbeatData enc urlParse (getASHeartbeats dec st)) = []) :
    cloudSyncCycle enabled tag subdomain lambdaUrl enc dec urlParse st fetchRes =
      { outcome := SyncOutcome.Skipped, store := st } := by
  rcases h with h | h | h | h | h
  · simp [cloudSyncCycle, h]
  · have hv : validateSyncPrerequisites tag subdomain lambdaUrl = none := by
      simp [validateSyncPrerequisites, h]
    cases enabled with
    | false => simp [cloudSyncCycle]
    | true => simp [cloudSyncCycle, hv]
  · have hv : validateSyncPrerequisites tag subdomain lambdaUrl = none := by
      simp [validateSyncPrerequisites, h]
    cases enabled with
    | false => simp [cloudSyncCycle]
    | true => simp [cloudSyncCycle, hv]
  · cases enabled with
    | false => simp [cloudSyncCycle]
    | true =>
      cases hv : validateSyncPrerequisites tag subdomain lambdaUrl with
      | none => simp [cloudSyncCycle, hv]
      | some cfg => simp [cloudSyncCycle, hv, h]
  · cases enabled with
    | false => simp [cloudSyncCycle]
    | true =>
      cases hv : validateSyncPrerequisites tag subdomain lambdaUrl with
      | none => simp [cloudSyncCycle, hv]
      | some cfg =>
        by_cases hempty : getASHeartbeats dec st = []
        · simp [cloudSyncCycle, hv, hempty]
        · simp [cloudSyncCycle, hv, hempty, h]

theorem syncCycle_skip_retains_buffer_witness :
    cloudSyncCycle false "t" "s" "u" encE decZ (fun _ => none) sampleStore2
        (fun _ => FetchResult.ok) =
      { outcome := SyncOutcome.Skipped, store := sampleStore2 } :=
  syncCycle_skip_retains_buffer false "t" "s" "u" encE decZ (fun _ => none)
    sampleStore2 (fun _ => FetchResult.ok) (Or.inl rfl)

section SyncLemmas

theorem runBatches_length (cfg : SyncConfig) (f : Nat → FetchResult) (i : Nat)
    (bs : List (List MappedHeartbeat)) :
    (runBatches cfg f i bs).length = bs.length := by
  induction bs generalizing i with
  | nil => rfl
  | cons b t ih => simp [runBatches, ih]

theorem processInBatches_ne_nil (l : List MappedHeartbeat) (h : l ≠ []) :
    processInBatches l ≠ [] := by
  unfold processInBatches
  simp [h]

theorem processInBatches_small (l : List MappedHeartbeat) (h1 : l ≠ [])
    (h2 : l.length ≤ 100) : processInBatches l = [l] := by
  unfold processInBatches
  rw [dif_neg h1, List.take_of_length_le h2, List.drop_eq_nil_of_le h2]
  unfold processInBatches
  rfl

theorem cloudSyncCycle_loop_eq (tag subdomain lambdaUrl : String)
    (enc : Int → String) (dec : String → Int)
    (urlParse : String → Option (String × String))
    (st : HeartbeatStore) (fetchRes : Nat → FetchResult) (cfg : SyncConfig)
    (hv : validateSyncPrerequisites tag subdomain lambdaUrl = some cfg)
    (hdata : filterValidHeartbeats
      (mapHeartbeatData enc urlParse (getASHeartbeats dec st)) ≠ []) :
    cloudSyncCycle true tag subdomain lambdaUrl enc dec urlParse st fetchRes =
      if (runBatches cfg fetchRes 0
            (processInBatches (filterValidHeartbeats
              (mapHeartbeatData enc urlParse (getASHeartbeats dec st))))).all
          (fun b => b)
      then { outcome := SyncOutcome.Cleared, store := some [] }
      else { outcome := SyncOutcome.PartialFailure, store := st } := by
  have hne : getASHeartbeats dec st ≠ [] := by
    intro hh
    exact hdata (by simp [hh, mapHeartbeatData, filterValidHeartbeats])
  have hb : processInBatches (filterValidHeartbeats
      (mapHeartbeatData enc urlParse (getASHeartbeats dec st))) ≠ [] :=
    processInBatches_ne_nil _ hdata
  simp [cloudSyncCycle, hv, hne, hdata, hb, clearASHeartbeats]

end SyncLemmas

/-- C1: once the cycle reaches the batch loop over a non-empty filtered
sequence, the loop produces one result per batch (every batch is
attempted), any non-success response or thrown exception marks its batch
failed, the buffer is cleared exactly when at least one batch was
attempted and all succeeded, and any failure leaves the buffer unchanged
with a partial-failure outcome. -/
theorem syncCycle_clears_iff_all_batches_succeed (tag subdomain lambdaUrl : String)
    (enc : Int → String) (dec : String → Int)
    (urlParse : String → Option (String × String))
    (st : HeartbeatStore) (fetchRes : Nat → FetchResult) (cfg : SyncConfig)
    (hv : validateSyncPrerequisites tag subdomain lambdaUrl = some cfg)
    (hdata : filterValidHeartbeats
      (mapHeartbeatData enc urlParse (getASHeartbeats dec st)) ≠ []) :
    (runBatches cfg fetchRes 0 (processInBatches (filterValidHeartbeats
        (mapHeartbeatData enc urlParse (getASHeartbeats dec st))))).length =
      (processInBatches (filterValidHeartbeats
        (mapHeartbeatData enc urlParse (getASHeartbeats dec st)))).length ∧
    (∀ b : List MappedHeartbeat, ∀ r : FetchResult, r ≠ FetchResult.ok →
      syncBatch b cfg r = false) ∧
    (cloudSyncCycle true tag subdomain lambdaUrl enc dec urlParse st fetchRes =
        { outcome := SyncOutcome.Cleared, store := some [] } ↔
      processInBatches (filterValidHeartbeats
          (mapHeartbeatData enc urlParse (getASHeartbeats dec st))) ≠ [] ∧
        (runBatches cfg fetchRes 0 (processInBatches (filterValidHeartbeats
          (mapHeartbeatData enc urlParse (getASHeartbeats dec st))))).all
            (fun b => b) = true) ∧
    ((runBatches cfg fetchRes 0 (processInBatches (filterValidHeartbeats
        (mapHeartbeatData enc urlParse (getASHeartbeats dec st))))).all
          (fun b => b) = false →
      cloudSyncCycle true tag subdomain lambdaUrl enc dec urlParse st fetchRes =
        { outcome := SyncOutcome.PartialFailure, store := st }) := by
  have hb : processInBatches (filterValidHeartbeats
      (mapHeartbeatData enc urlParse (getASHeartbeats dec st))) ≠ [] :=
    processInBatches_ne_nil _ hdata
  have hred := cloudSyncCycle_loop_eq tag subdomain lambdaUrl enc dec urlParse
    st fetchRes cfg hv hdata
  refine ⟨runBatches_length cfg fetchRes 0 _, ?_, ?_, ?_⟩
  · intro b r hr
    unfold syncBatch
    split
    · rfl
    · cases r with
      | ok => exact absurd rfl hr
      | notOk => rfl
      | thrown => rfl
  · rw [hred]
    by_cases hall : (runBatches cfg fetchRes 0 (processInBatches (filterValidHeartbeats
        (mapHeartbeatData enc urlParse (getASHeartbeats dec st))))).all
          (fun b => b) = true
    · simp [hall, hb]
    · rw [Bool.not_eq_true] at hall
      simp [hall]
  · intro hall
    rw [hred, hall]
    rfl

theorem syncCycle_clears_iff_all_batches_succeed_witness :
    cloudSyncCycle true "t" "s" "u" encE decZ
        (fun _ => some ("https:", "a.com")) sampleStore2
        (fun _ => FetchResult.ok) =
      { outcome := SyncOutcome.Cleared, store := some [] } := by
  have h := (syncCycle_clears_iff_all_batches_succeed "t" "s" "u" encE decZ
    (fun _ => some ("https:", "a.com")) sampleStore2 (fun _ => FetchResult.ok)
    (SyncConfig.mk "t" "s" "u") (by decide) (by decide)).2.2.1
  apply h.mpr
  constructor
  · exact processInBatches_ne_nil _ (by decide)
  · rw [processInBatches_small _ (by decide) (by decide)]
    decide

end AwWatcherWeb
